import Mathlib

/-!
# Verification of the metaflow-local-service metadata store and daemon

Shallow embedding of `src/metaflow_local_service/store.py`,
`daemon.py` and `server.py`.  The filesystem-backed metadata
primitives (`get_object`, `_create_and_get_metadir`, `_save_meta`,
`_mutate_user_tags_for_run`) that the store delegates to live in the
external metaflow package; they are modelled from the spec's §4.1
Object Store contract and are marked as such.  Everything else is a
direct translation of the repository's Python functions.
-/

namespace MetaflowLocalService

/-! ## Python integer parsing

`_scan_max_task_id` calls `int(task_dir)` and skips directories whose
names do not parse.  We model Python's `int` on optionally signed
ASCII decimal strings; any other string is `none` (raises in Python,
which the source catches as `ValueError`). -/

def digitVal (c : Char) : Option Nat :=
  if c.isDigit then some (c.toNat - 48) else none

def parseDigitsAux : List Char → Nat → Option Nat
  | [], acc => some acc
  | c :: cs, acc =>
    match digitVal c with
    | some d => parseDigitsAux cs (acc * 10 + d)
    | none => none

def parseDigits : List Char → Option Nat
  | [] => none
  | cs => parseDigitsAux cs 0

def pyInt (s : String) : Option Int :=
  match s.data with
  | '-' :: rest => (parseDigits rest).map (fun n => -(n : Int))
  | '+' :: rest => (parseDigits rest).map (fun n => (n : Int))
  | cs => (parseDigits cs).map (fun n => (n : Int))

/-! ## Records and request bodies

One record shape covers the flow/run/step/task `_self` records built
by `_build_flow_record` .. `_build_task_record`; fields that a given
level does not use stay `none`.  Artifact records keep the fields the
claims need (`name`, `attempt_id`) plus an opaque payload standing for
the remaining dict entries. -/

structure Record where
  flow_id : String
  run_number : Option String := none
  step_name : Option String := none
  task_id : Option String := none
  user_name : String
  tags : List String
  system_tags : List String
  ts_epoch : Nat
deriving DecidableEq, Repr

structure Art where
  name : String
  attempt_id : Option Nat := none
  payload : String := ""
deriving DecidableEq, Repr

structure Body where
  user_name : Option String := none
  tags : Option (List String) := none
  system_tags : Option (List String) := none
  ts_epoch : Option Nat := none
deriving DecidableEq, Repr

/-- Ambient effectful context of a request: the resolved
`_get_username()` result and the `_ts_now()` clock reading. -/
structure Env where
  username : String
  now : Nat
deriving DecidableEq, Repr

/-- Python `body.get("user_name") or _get_username()`: the empty
string is falsy, so it also falls back to the ambient username. -/
def orUser (v : Option String) (env : Env) : String :=
  match v with
  | some u => if u = "" then env.username else u
  | none => env.username

/-- Python `body.get("ts_epoch") or _ts_now()`: `0` is falsy. -/
def orNow (v : Option Nat) (env : Env) : Nat :=
  match v with
  | some t => if t = 0 then env.now else t
  | none => env.now

def _build_flow_record (flow_name : String) (body : Body) (env : Env) : Record :=
  { flow_id := flow_name
    user_name := orUser body.user_name env
    tags := body.tags.getD []
    system_tags := body.system_tags.getD []
    ts_epoch := orNow body.ts_epoch env }

def _build_run_record (flow_name run_id : String) (body : Body) (env : Env) : Record :=
  { flow_id := flow_name
    run_number := some run_id
    user_name := orUser body.user_name env
    tags := body.tags.getD []
    system_tags := body.system_tags.getD []
    ts_epoch := orNow body.ts_epoch env }

def _build_step_record (flow_name run_id step_name : String) (body : Body)
    (env : Env) : Record :=
  { flow_id := flow_name
    run_number := some run_id
    step_name := some step_name
    user_name := orUser body.user_name env
    tags := body.tags.getD []
    system_tags := body.system_tags.getD []
    ts_epoch := orNow body.ts_epoch env }

def _build_task_record (flow_name run_id step_name task_id : String) (body : Body)
    (env : Env) : Record :=
  { flow_id := flow_name
    run_number := some run_id
    step_name := some step_name
    task_id := some task_id
    user_name := orUser body.user_name env
    tags := body.tags.getD []
    system_tags := body.system_tags.getD []
    ts_epoch := orNow body.ts_epoch env }

/-! ## The on-disk metadata tree

A metadir is addressed by its key path (`[flow]`, `[flow, run]`,
`[flow, run, step]` or `[flow, run, step, task]`); each metadir holds
JSON files keyed by base name (`_self`, `<attempt>_artifact_<name>`,
`sysmeta_...`). -/

inductive FileVal where
  | record (r : Record)
  | artifact (a : Art)
deriving DecidableEq, Repr

abbrev MetaDirKey := List String

structure FS where
  dirs : List MetaDirKey
  files : List ((MetaDirKey × String) × FileVal)
deriving DecidableEq, Repr

/-- First-match association lookup. -/
def findVal {κ β : Type} [DecidableEq κ] (k : κ) : List (κ × β) → Option β
  | [] => none
  | e :: es => if e.1 = k then some e.2 else findVal k es

def removeKey {κ β : Type} [DecidableEq κ] (k : κ) : List (κ × β) → List (κ × β)
  | [] => []
  | e :: es => if e.1 = k then removeKey k es else e :: removeKey k es

def getFile (fs : FS) (dir : MetaDirKey) (name : String) : Option FileVal :=
  findVal (dir, name) fs.files

/-- Atomic overwrite of one file (tempfile-then-rename). -/
def insertFile (dir : MetaDirKey) (name : String) (v : FileVal) (fs : FS) : FS :=
  { fs with files := ((dir, name), v) :: removeKey (dir, name) fs.files }

/-- Modelled from the spec: §4.1 `create` "unconditionally builds the
containing directory (idempotent mkdir)".  The implementation,
`LocalMetadataProvider._create_and_get_metadir`, lives in the external
metaflow package, not under src/; per the spec it only makes
directories and writes no record. -/
def _create_and_get_metadir (dir : MetaDirKey) (fs : FS) : FS :=
  if fs.dirs.contains dir then fs else { fs with dirs := dir :: fs.dirs }

/-- Modelled from the spec: §4.1 atomic write — serialize each
(name, value) entry to a temp file and atomically rename it over the
final path.  The implementation is
`LocalMetadataProvider._save_meta`, external to src/. -/
def _save_meta (dir : MetaDirKey) (entries : List (String × FileVal)) (fs : FS) : FS :=
  entries.foldl (fun acc e => insertFile dir e.1 e.2 acc) fs

/-- Modelled from the spec: §4.1 `getObject(kind, "self", keyPath)`
reads exactly one file; absent or malformed content is reported as
absent (`none`), never an error.  Implemented externally by
`LocalMetadataProvider.get_object`. -/
def get_object_self (fs : FS) (dir : MetaDirKey) : Option Record :=
  match getFile fs dir "_self" with
  | some (FileVal.record r) => some r
  | _ => none

/-! ## Identifier generation (`store.py` lines 64-126) -/

/-- `_scan_max_task_id`: the glob
`{root}/{flow}/{run}/*/*/_meta/_self.json` picks out the `_self` file
of every task metadir two levels below the run; `parts[-3]` is the
task directory name.  `rootSet` models whether
`LocalStorage.datastore_root` is set (`None` returns 0). -/
def scanEntry (flow_name run_id : String) (m : Int)
    (e : (MetaDirKey × String) × FileVal) : Int :=
  match e.1.1 with
  | [f, r, _step, task_dir] =>
    if f = flow_name ∧ r = run_id ∧ e.1.2 = "_self" then
      match pyInt task_dir with
      | some v => max m v
      | none => m
    else m
  | _ => m

def _scan_max_task_id (rootSet : Bool) (flow_name run_id : String) (fs : FS) : Int :=
  if rootSet then fs.files.foldl (scanEntry flow_name run_id) 0 else 0

abbrev TaskCounters := List (String × Int)

/-- Numeric core of `_next_task_id`: seed the counter for
`"{flow}/{run}"` from disk if this is the first request for the pair,
then increment and return. -/
def _next_task_id_val (rootSet : Bool) (flow_name run_id : String) (fs : FS)
    (counters : TaskCounters) : Int × TaskCounters :=
  let key := flow_name ++ "/" ++ run_id
  let seeded : Int :=
    match findVal key counters with
    | some v => v
    | none => _scan_max_task_id rootSet flow_name run_id fs
  let v := seeded + 1
  (v, (key, v) :: removeKey key counters)

def _next_task_id (rootSet : Bool) (flow_name run_id : String) (fs : FS)
    (counters : TaskCounters) : String × TaskCounters :=
  let p := _next_task_id_val rootSet flow_name run_id fs counters
  (toString p.1, p.2)

/-- Numeric core of `new_run_id`: `max(wall, last + 1)`. -/
def new_run_id_val (wall last_run_id : Int) : Int :=
  max wall (last_run_id + 1)

def new_run_id (wall last_run_id : Int) : String × Int :=
  (toString (new_run_id_val wall last_run_id), new_run_id_val wall last_run_id)

/-! ## Store operations (`store.py` lines 201-327) -/

def get_or_create_flow (flow_name : String) (body : Body) (env : Env) (fs : FS) :
    (Record × Bool) × FS :=
  match get_object_self fs [flow_name] with
  | some existing => ((existing, false), fs)
  | none =>
    let record := _build_flow_record flow_name body env
    let fs1 := _create_and_get_metadir [flow_name] fs
    ((record, true), _save_meta [flow_name] [("_self", FileVal.record record)] fs1)

def get_flow (fs : FS) (flow_name : String) : Option Record :=
  get_object_self fs [flow_name]

def create_run (flow_name : String) (body : Body) (env : Env) (wall : Int)
    (fs : FS) (last_run_id : Int) : Record × FS × Int :=
  let fs1 := (get_or_create_flow flow_name body env fs).2
  let p := new_run_id wall last_run_id
  let record := _build_run_record flow_name p.1 body env
  let fs2 := _create_and_get_metadir [flow_name, p.1] fs1
  (record, _save_meta [flow_name, p.1] [("_self", FileVal.record record)] fs2, p.2)

def get_run (fs : FS) (flow_name run_id : String) : Option Record :=
  get_object_self fs [flow_name, run_id]

def get_or_create_step (flow_name run_id step_name : String) (body : Body)
    (env : Env) (fs : FS) : (Record × Bool) × FS :=
  match get_object_self fs [flow_name, run_id, step_name] with
  | some existing => ((existing, false), fs)
  | none =>
    let record := _build_step_record flow_name run_id step_name body env
    let fs1 := _create_and_get_metadir [flow_name, run_id, step_name] fs
    ((record, true),
      _save_meta [flow_name, run_id, step_name] [("_self", FileVal.record record)] fs1)

def get_step (fs : FS) (flow_name run_id step_name : String) : Option Record :=
  get_object_self fs [flow_name, run_id, step_name]

def create_task (flow_name run_id step_name : String) (body : Body) (env : Env)
    (rootSet : Bool) (fs : FS) (counters : TaskCounters) :
    Record × FS × TaskCounters :=
  let fs1 := (get_or_create_step flow_name run_id step_name body env fs).2
  let p := _next_task_id rootSet flow_name run_id fs1 counters
  let record := _build_task_record flow_name run_id step_name p.1 body env
  let fs2 := _create_and_get_metadir [flow_name, run_id, step_name, p.1] fs1
  (record,
    _save_meta [flow_name, run_id, step_name, p.1] [("_self", FileVal.record record)] fs2,
    p.2)

/-! ## Artifacts (`store.py` lines 289-327) -/

/-- Dict key `"%s_artifact_%s" % (a.get("attempt_id", 0), a["name"])`. -/
def artifactFileName (a : Art) : String :=
  toString (a.attempt_id.getD 0) ++ "_artifact_" ++ a.name

def register_artifacts (flow_name run_id step_name task_id : String)
    (artifacts : List Art) (fs : FS) : FS :=
  let fs1 := _create_and_get_metadir [flow_name, run_id, step_name, task_id] fs
  _save_meta [flow_name, run_id, step_name, task_id]
    (artifacts.map (fun a => (artifactFileName a, FileVal.artifact a))) fs1

/-- Substring containment on char lists, used to model the glob
`*_artifact_*.json` (a `*` in a glob matches any run of non-separator
characters, so the pattern matches exactly the file names containing
`_artifact_`). -/
def hasSub (p : List Char) : List Char → Bool
  | [] => p.isEmpty
  | c :: cs => p.isPrefixOf (c :: cs) || hasSub p cs

/-- Glob match for `get_artifacts`: with an attempt filter the pattern
is `"%d_artifact_" % attempt + "*.json"`, i.e. a filename prefix test;
without one it is `"*_artifact_*.json"`. -/
def globArtifactMatch (attempt : Option Nat) (fname : String) : Bool :=
  match attempt with
  | some a => (toString a ++ "_artifact_").data.isPrefixOf fname.data
  | none => hasSub ("_artifact_").data fname.data

def dirExists (fs : FS) (dir : MetaDirKey) : Bool :=
  fs.dirs.contains dir

def get_artifacts (flow_name run_id step_name task_id : String)
    (attempt : Option Nat) (fs : FS) : List FileVal :=
  let dir : MetaDirKey := [flow_name, run_id, step_name, task_id]
  if dirExists fs dir then
    fs.files.filterMap (fun e =>
      if e.1.1 = dir ∧ globArtifactMatch attempt e.1.2 then some e.2 else none)
  else []

/-! ## Tag mutation (`store.py` lines 355-364) -/

/-- Modelled from the spec: §4.1 "Tag mutation: read current run
record, compute `(existingTags ∪ toAdd) \ toRemove`, write back; only
Run tags are exposed for mutation."  The implementation,
`LocalMetadataProvider._mutate_user_tags_for_run`, lives in the
external metaflow package, not under src/.  A missing run record is a
failure (`none`; an exception in Python, mapped to 422 by the HTTP
layer). -/
def mutate_tags (flow_name run_id : String)
    (tags_to_add tags_to_remove : List String) (fs : FS) :
    Option (Finset String × FS) :=
  match get_object_self fs [flow_name, run_id] with
  | none => none
  | some r =>
    let final := (r.tags.toFinset ∪ tags_to_add.toFinset) \ tags_to_remove.toFinset
    let r1 := { r with tags := final.sort (· ≤ ·) }
    some (final, insertFile [flow_name, run_id] "_self" (FileVal.record r1) fs)

/-! ## Daemon lifecycle (`daemon.py` lines 95-142) -/

structure DaemonState where
  pid : Nat
  port : Nat
  metaflow_root : String
  started_at : Nat
deriving DecidableEq, Repr

/-- Contents of `~/.metaflow-local-service/state.json` as seen by a
reader: missing, unparseable, or a valid record. -/
inductive StateFileContent where
  | absent
  | malformed
  | valid (d : DaemonState)
deriving DecidableEq, Repr

/-- The daemon-side world: the two state files plus which PIDs are
alive (`os.kill(pid, 0)` succeeding). -/
structure DaemonFS where
  state_file : StateFileContent
  pid_file : Bool
  alive : Nat → Bool

/-- `_read_state`: `None` when the file is missing, `None` when
parsing raises (the bare `except Exception` branch). -/
def _read_state (dfs : DaemonFS) : Option DaemonState :=
  match dfs.state_file with
  | StateFileContent.valid d => some d
  | _ => none

/-- `_clear_state`: removes both files, ignoring `FileNotFoundError`. -/
def _clear_state (dfs : DaemonFS) : DaemonFS :=
  { dfs with state_file := StateFileContent.absent, pid_file := false }

/-- `status()`: the running daemon's state, or `None`; self-heals a
record naming a dead process. -/
def status (dfs : DaemonFS) : Option DaemonState × DaemonFS :=
  match _read_state dfs with
  | none => (none, dfs)
  | some st =>
    if dfs.alive st.pid then (some st, dfs) else (none, _clear_state dfs)

/-! ## HTTP server state and heartbeats (`server.py`) -/

def _HEARTBEAT_INTERVAL_SECONDS : Nat := 10

/-- Process-wide server state: the module-level `last_heartbeat_at`
plus the store module's state (filesystem, task counters, run-id
clock). -/
structure ServerState where
  last_heartbeat_at : Int
  store_fs : FS
  store_counters : TaskCounters
  store_last_run_id : Int
deriving DecidableEq, Repr

structure HeartbeatResponse where
  status_code : Nat
  wait_time_in_seconds : Nat
deriving DecidableEq, Repr

/-- `POST /flows/{flow}/runs/{run}/heartbeat`: records the wall-clock
time in `last_heartbeat_at` and returns 200. -/
def run_heartbeat (_flow_name _run_id : String) (now : Int)
    (s : ServerState) : HeartbeatResponse × ServerState :=
  ({ status_code := 200, wait_time_in_seconds := _HEARTBEAT_INTERVAL_SECONDS },
    { s with last_heartbeat_at := now })

/-- `POST .../tasks/{task}/heartbeat`: identical body. -/
def task_heartbeat (_flow_name _run_id _step_name _task_id : String) (now : Int)
    (s : ServerState) : HeartbeatResponse × ServerState :=
  ({ status_code := 200, wait_time_in_seconds := _HEARTBEAT_INTERVAL_SECONDS },
    { s with last_heartbeat_at := now })

/-! ## Idle monitor (`daemon.py` lines 274-284) -/

def _MONITOR_WAKE_INTERVAL : Nat := 30

/-- The monitor's wake-up check: `silence = time.time() -
server.last_heartbeat_at; silence > idle_timeout`. -/
def idleCheckFires (idle_timeout now last_heartbeat_at : Int) : Bool :=
  idle_timeout < now - last_heartbeat_at

/-- One wake-up of `_idle_monitor`: sets `uv_server.should_exit` when
the check fires, otherwise leaves it alone. -/
def idleMonitorWake (idle_timeout now last_heartbeat_at : Int)
    (should_exit : Bool) : Bool :=
  should_exit || idleCheckFires idle_timeout now last_heartbeat_at

/-- Wake-up times of the monitor loop: it sleeps 30 s between checks,
starting when the daemon boots. -/
def monitorWakeTime (boot : Int) (k : Nat) : Int :=
  boot + (_MONITOR_WAKE_INTERVAL : Int) * (k + 1)

/-! ## Call traces for the identifier generators -/

/-- Values returned by successive `_next_task_id` calls for one
(flow, run) pair; each call may see a different filesystem (tasks are
written between calls), which only matters for the seeding call. -/
def taskIdValTrace (rootSet : Bool) (flow_name run_id : String) :
    List FS → TaskCounters → List Int
  | [], _ => []
  | fs :: rest, counters =>
    let p := _next_task_id_val rootSet flow_name run_id fs counters
    p.1 :: taskIdValTrace rootSet flow_name run_id rest p.2

/-- Values returned by successive `new_run_id` calls, one per sampled
wall-clock reading. -/
def runIdValTrace : List Int → Int → List Int
  | [], _ => []
  | wall :: rest, last_run_id =>
    let v := new_run_id_val wall last_run_id
    v :: runIdValTrace rest v

/-! ## Helper lemmas: association lists -/

theorem findVal_insert_self {κ β : Type} [DecidableEq κ] (k : κ) (v : β)
    (l : List (κ × β)) : findVal k ((k, v) :: l) = some v := by
  simp [findVal]

theorem findVal_removeKey_ne {κ β : Type} [DecidableEq κ] (k k' : κ)
    (h : k' ≠ k) (l : List (κ × β)) : findVal k' (removeKey k l) = findVal k' l := by
  induction l with
  | nil => rfl
  | cons e es ih =>
    by_cases he : e.1 = k
    · rw [removeKey, if_pos he, ih, findVal, if_neg (by rw [he]; exact fun hk => h hk.symm)]
    · rw [removeKey, if_neg he, findVal, findVal]
      split
      · rfl
      · exact ih

theorem removeKey_of_not_mem {κ β : Type} [DecidableEq κ] (k : κ)
    (l : List (κ × β)) (h : ∀ e ∈ l, e.1 ≠ k) : removeKey k l = l := by
  induction l with
  | nil => rfl
  | cons e es ih =>
    rw [removeKey, if_neg (h e (List.mem_cons_self e es)), ih]
    intro a ha
    exact h a (List.mem_cons_of_mem e ha)

theorem findVal_eq_none {κ β : Type} [DecidableEq κ] (k : κ)
    (l : List (κ × β)) (h : ∀ e ∈ l, e.1 ≠ k) : findVal k l = none := by
  induction l with
  | nil => rfl
  | cons e es ih =>
    rw [findVal, if_neg (h e (List.mem_cons_self e es))]
    exact ih fun a ha => h a (List.mem_cons_of_mem e ha)

theorem findVal_mem {κ β : Type} [DecidableEq κ] (k : κ) (v : β) :
    ∀ l : List (κ × β), findVal k l = some v → (k, v) ∈ l := by
  intro l
  induction l with
  | nil => intro h; exact absurd h (by simp [findVal])
  | cons e es ih =>
    intro h
    rw [findVal] at h
    split at h
    · rename_i he
      cases h
      rw [← he]
      exact List.mem_cons_self e es
    · exact List.mem_cons_of_mem e (ih h)

/-! ## Helper lemmas: filesystem primitives -/

theorem getFile_insertFile_self (dir : MetaDirKey) (name : String) (v : FileVal)
    (fs : FS) : getFile (insertFile dir name v fs) dir name = some v :=
  findVal_insert_self _ _ _

theorem getFile_insertFile_ne (dir dir' : MetaDirKey) (name name' : String)
    (v : FileVal) (fs : FS) (h : (dir', name') ≠ (dir, name)) :
    getFile (insertFile dir name v fs) dir' name' = getFile fs dir' name' := by
  unfold getFile insertFile
  rw [findVal, if_neg (fun he => h he.symm)]
  exact findVal_removeKey_ne _ _ h _

theorem insertFile_dirs (dir : MetaDirKey) (name : String) (v : FileVal)
    (fs : FS) : (insertFile dir name v fs).dirs = fs.dirs := rfl

theorem create_metadir_files (dir : MetaDirKey) (fs : FS) :
    (_create_and_get_metadir dir fs).files = fs.files := by
  unfold _create_and_get_metadir
  split <;> rfl

theorem create_metadir_contains (dir : MetaDirKey) (fs : FS) :
    (_create_and_get_metadir dir fs).dirs.contains dir = true := by
  unfold _create_and_get_metadir
  split
  · assumption
  · simp

theorem create_metadir_contains_mono (dir dir' : MetaDirKey) (fs : FS)
    (h : fs.dirs.contains dir = true) :
    (_create_and_get_metadir dir' fs).dirs.contains dir = true := by
  unfold _create_and_get_metadir
  split
  · exact h
  · simp only [List.contains_cons, h, Bool.or_true]

theorem save_meta_single (dir : MetaDirKey) (name : String) (v : FileVal)
    (fs : FS) : _save_meta dir [(name, v)] fs = insertFile dir name v fs := rfl

theorem save_meta_dirs (dir : MetaDirKey) :
    ∀ (entries : List (String × FileVal)) (fs : FS),
    (_save_meta dir entries fs).dirs = fs.dirs := by
  intro entries
  induction entries with
  | nil => intro fs; rfl
  | cons e es ih =>
    intro fs
    show (_save_meta dir es (insertFile dir e.1 e.2 fs)).dirs = fs.dirs
    rw [ih, insertFile_dirs]

theorem get_object_self_insert_other (dir dir' : MetaDirKey) (v : FileVal)
    (fs : FS) (h : dir' ≠ dir) :
    get_object_self (insertFile dir "_self" v fs) dir' = get_object_self fs dir' := by
  unfold get_object_self
  rw [getFile_insertFile_ne _ _ _ _ _ _ (by simp [h])]

theorem save_meta_files_of_fresh (dir : MetaDirKey) :
    ∀ (entries : List (String × FileVal)) (fs : FS),
    (∀ e ∈ entries, ∀ e' ∈ fs.files, e'.1 ≠ (dir, e.1)) →
    (entries.map Prod.fst).Nodup →
    (_save_meta dir entries fs).files =
      (entries.map (fun e => ((dir, e.1), e.2))).reverse ++ fs.files := by
  intro entries
  induction entries with
  | nil => intro fs _ _; rfl
  | cons e es ih =>
    intro fs hfresh hnodup
    show (_save_meta dir es (insertFile dir e.1 e.2 fs)).files = _
    have hrm : removeKey (dir, e.1) fs.files = fs.files :=
      removeKey_of_not_mem _ _ fun e' he' => hfresh e (List.mem_cons_self e es) e' he'
    have hfiles : (insertFile dir e.1 e.2 fs).files = ((dir, e.1), e.2) :: fs.files := by
      unfold insertFile
      rw [hrm]
    rw [ih (insertFile dir e.1 e.2 fs) ?fresh ?nodup]
    · rw [hfiles]
      simp
    case fresh =>
      intro a ha e' he'
      rw [hfiles] at he'
      rcases List.mem_cons.1 he' with he' | he'
      · rw [he']
        intro hcontra
        have : e.1 = a.1 := by simpa using hcontra
        have : a.1 ∈ es.map Prod.fst := List.mem_map_of_mem Prod.fst ha
        rw [← ‹e.1 = a.1›] at this
        exact (List.nodup_cons.1 (by simpa using hnodup)).1 this
      · exact hfresh a (List.mem_cons_of_mem e ha) e' he'
    case nodup =>
      exact (List.nodup_cons.1 (by simpa using hnodup)).2

/-! ## Helper lemmas: strings and glob matching -/

theorem str_data_append (s t : String) : (s ++ t).data = s.data ++ t.data := by
  cases s; cases t; rfl

theorem isPrefixOf_append_self (l m : List Char) : l.isPrefixOf (l ++ m) = true := by
  induction l with
  | nil => simp [List.isPrefixOf]
  | cons c cs ih => simp [List.isPrefixOf, ih]

theorem isPrefixOf_cons_ne (c c' : Char) (h : ¬ c = c') (p l : List Char) :
    (c :: p).isPrefixOf (c' :: l) = false := by
  simp [List.isPrefixOf, h]

theorem hasSub_append_self (p m : List Char) (hp : p ≠ []) :
    hasSub p (p ++ m) = true := by
  cases p with
  | nil => exact absurd rfl hp
  | cons c cs =>
    show hasSub (c :: cs) (c :: (cs ++ m)) = true
    rw [hasSub]
    have : (c :: cs).isPrefixOf (c :: (cs ++ m)) = true := isPrefixOf_append_self _ _
    rw [this, Bool.true_or]

/-- Filter for attempt `a` accepts every file registered for attempt `a`. -/
theorem glob_match_same_attempt (a : Nat) (n : String) :
    globArtifactMatch (some a) (toString a ++ "_artifact_" ++ n) = true := by
  show (toString a ++ "_artifact_").data.isPrefixOf _ = true
  rw [str_data_append]
  exact isPrefixOf_append_self _ _

/-- Filter for attempt 1 rejects every file registered for attempt 0. -/
theorem glob_one_rejects_zero (n : String) :
    globArtifactMatch (some 1) (toString (0 : Nat) ++ "_artifact_" ++ n) = false := by
  show (toString (1 : Nat) ++ "_artifact_").data.isPrefixOf _ = false
  have h0 : ((toString (0 : Nat) ++ "_artifact_" ++ n) : String).data =
      '0' :: (("_artifact_" : String).data ++ n.data) := by
    cases n; rfl
  have h1 : ((toString (1 : Nat) ++ "_artifact_") : String).data =
      '1' :: ("_artifact_" : String).data := rfl
  rw [h0, h1]
  exact isPrefixOf_cons_ne _ _ (by decide) _ _

/-- The unfiltered glob `*_artifact_*.json` accepts every registered
artifact file, whatever its attempt. -/
theorem glob_none_accepts (a : Nat) (n : String) :
    globArtifactMatch none (toString a ++ "_artifact_" ++ n) = true := by
  show hasSub ("_artifact_" : String).data _ = true
  have hd : ((toString a ++ "_artifact_" ++ n) : String).data =
      (toString a).data ++ (("_artifact_" : String).data ++ n.data) := by
    rw [str_data_append, str_data_append, List.append_assoc]
  rw [hd]
  have hmain : hasSub ("_artifact_" : String).data
      (("_artifact_" : String).data ++ n.data) = true :=
    hasSub_append_self _ _ (by decide)
  clear hd
  induction (toString a).data with
  | nil => simpa using hmain
  | cons c cs ih =>
    rw [List.cons_append, hasSub, ih, Bool.or_true]

theorem hasSub_cons_of (p : List Char) (c : Char) (l : List Char)
    (h : hasSub p l = true) : hasSub p (c :: l) = true := by
  rw [hasSub, h, Bool.or_true]

theorem hasSub_append_left (p m : List Char) (hp : p ≠ []) :
    ∀ pre : List Char, hasSub p (pre ++ (p ++ m)) = true := by
  intro pre
  induction pre with
  | nil => simpa using hasSub_append_self p m hp
  | cons c cs ih =>
    rw [List.cons_append]
    exact hasSub_cons_of p c _ ih

/-- A file name matched by some attempt-prefix glob
`"%d_artifact_*"` is also matched by the unfiltered glob
`"*_artifact_*"`; contrapositively, a file the unfiltered glob
rejects (such as `_self` or `sysmeta_*` files) is rejected by every
attempt filter as well. -/
theorem glob_some_implies_none (a : Nat) (fname : String)
    (h : globArtifactMatch (some a) fname = true) :
    globArtifactMatch none fname = true := by
  have hp : ((toString a ++ "_artifact_") : String).data.isPrefixOf fname.data = true := h
  rw [str_data_append] at hp
  obtain ⟨t, ht⟩ := List.isPrefixOf_iff_prefix.1 hp
  show hasSub ("_artifact_" : String).data fname.data = true
  rw [← ht, List.append_assoc]
  exact hasSub_append_left _ _ (by decide) _

/-! ## Helper lemmas: the task-id scan -/

theorem scanEntry_ge (flow_name run_id : String) (m : Int)
    (e : (MetaDirKey × String) × FileVal) : m ≤ scanEntry flow_name run_id m e := by
  unfold scanEntry
  split
  · split
    · split
      · exact le_max_left _ _
      · exact le_refl m
    · exact le_refl m
  · exact le_refl m

theorem foldl_scanEntry_ge (flow_name run_id : String) :
    ∀ (l : List ((MetaDirKey × String) × FileVal)) (m : Int),
    m ≤ l.foldl (scanEntry flow_name run_id) m := by
  intro l
  induction l with
  | nil => intro m; exact le_refl m
  | cons e es ih =>
    intro m
    exact le_trans (scanEntry_ge flow_name run_id m e) (ih _)

theorem scan_max_task_id_nonneg (rootSet : Bool) (flow_name run_id : String)
    (fs : FS) : 0 ≤ _scan_max_task_id rootSet flow_name run_id fs := by
  unfold _scan_max_task_id
  split
  · exact foldl_scanEntry_ge flow_name run_id fs.files 0
  · exact le_refl 0

/-! ## Helper lemmas: decimal rendering of natural numbers -/

theorem toDigitsCore_length_lower (b : Nat) : ∀ (fuel m : Nat) (l : List Char),
    l.length + 1 ≤ (Nat.toDigitsCore b (fuel + 1) m l).length := by
  intro fuel
  induction fuel with
  | zero =>
    intro m l
    simp only [Nat.toDigitsCore]
    split <;> simp
  | succ f ih =>
    intro m l
    simp only [Nat.toDigitsCore]
    split
    · simp
    · calc l.length + 1 ≤ (Nat.digitChar (m % b) :: l).length + 1 := by simp
        _ ≤ _ := ih (m / b) (Nat.digitChar (m % b) :: l)

theorem repr_length_lower (n : Nat) (h : 10 ≤ n) : 2 ≤ (Nat.repr n).length := by
  obtain ⟨f, rfl⟩ : ∃ f, n = f + 1 := ⟨n - 1, by omega⟩
  have hdiv : (f + 1) / 10 ≠ 0 := by
    have : 1 ≤ (f + 1) / 10 := (Nat.le_div_iff_mul_le (by norm_num)).2 (by omega)
    omega
  show 2 ≤ (Nat.toDigits 10 (f + 1)).asString.length
  have hlen : (Nat.toDigits 10 (f + 1)).asString.length =
      (Nat.toDigits 10 (f + 1)).length := rfl
  rw [hlen]
  unfold Nat.toDigits
  simp only [Nat.toDigitsCore, hdiv, if_false]
  have := toDigitsCore_length_lower 10 f ((f + 1) / 10) [Nat.digitChar ((f + 1) % 10)]
  simpa using this

theorem nat_repr_ne_zero (n : Nat) (h : 1 ≤ n) : Nat.repr n ≠ "0" := by
  by_cases hlt : n < 10
  · interval_cases n <;> decide
  · intro heq
    have h2 : 2 ≤ (Nat.repr n).length := repr_length_lower n (by omega)
    rw [heq] at h2
    exact absurd h2 (by decide)

theorem toString_int_ofNat (n : Nat) : toString (Int.ofNat n) = toString n := rfl

/-! ## Helper lemmas: trace closed forms -/

/-- `arithSeq start n = [start+1, start+2, ..., start+n]`. -/
def arithSeq (start : Int) : Nat → List Int
  | 0 => []
  | n + 1 => (start + 1) :: arithSeq (start + 1) n

theorem arithSeq_mem_gt : ∀ (n : Nat) (start x : Int),
    x ∈ arithSeq start n → start < x := by
  intro n
  induction n with
  | zero => intro start x hx; exact absurd hx (by simp [arithSeq])
  | succ m ih =>
    intro start x hx
    rcases List.mem_cons.1 hx with hx | hx
    · omega
    · have := ih (start + 1) x hx
      omega

theorem arithSeq_pairwise : ∀ (n : Nat) (start : Int),
    (arithSeq start n).Pairwise (· < ·) := by
  intro n
  induction n with
  | zero => intro start; exact List.Pairwise.nil
  | succ m ih =>
    intro start
    refine List.pairwise_cons.2 ⟨fun x hx => ?_, ih (start + 1)⟩
    exact arithSeq_mem_gt m (start + 1) x hx

theorem next_task_id_val_of_found (rootSet : Bool) (flow_name run_id : String)
    (fs : FS) (counters : TaskCounters) (v : Int)
    (h : findVal (flow_name ++ "/" ++ run_id) counters = some v) :
    _next_task_id_val rootSet flow_name run_id fs counters =
      (v + 1, (flow_name ++ "/" ++ run_id, v + 1)
        :: removeKey (flow_name ++ "/" ++ run_id) counters) := by
  simp only [_next_task_id_val, h]

theorem next_task_id_val_of_absent (rootSet : Bool) (flow_name run_id : String)
    (fs : FS) (counters : TaskCounters)
    (h : findVal (flow_name ++ "/" ++ run_id) counters = none) :
    _next_task_id_val rootSet flow_name run_id fs counters =
      (_scan_max_task_id rootSet flow_name run_id fs + 1,
        (flow_name ++ "/" ++ run_id, _scan_max_task_id rootSet flow_name run_id fs + 1)
          :: removeKey (flow_name ++ "/" ++ run_id) counters) := by
  simp only [_next_task_id_val, h]

theorem trace_of_found (rootSet : Bool) (flow_name run_id : String) :
    ∀ (fss : List FS) (counters : TaskCounters) (v : Int),
    findVal (flow_name ++ "/" ++ run_id) counters = some v →
    taskIdValTrace rootSet flow_name run_id fss counters = arithSeq v fss.length := by
  intro fss
  induction fss with
  | nil => intro counters v _; rfl
  | cons fs rest ih =>
    intro counters v h
    rw [taskIdValTrace]
    simp only [next_task_id_val_of_found rootSet flow_name run_id fs counters v h]
    rw [ih _ (v + 1) (findVal_insert_self _ _ _)]
    rfl

/-- Seed of a maximal same-key trace: the cached counter when the pair
has been seen, otherwise the disk scan against the filesystem the
first call observes. -/
def traceStart (rootSet : Bool) (flow_name run_id : String) (fss : List FS)
    (counters : TaskCounters) : Int :=
  match findVal (flow_name ++ "/" ++ run_id) counters with
  | some v => v
  | none =>
    match fss with
    | [] => 0
    | fs :: _ => _scan_max_task_id rootSet flow_name run_id fs

theorem trace_closed_form (rootSet : Bool) (flow_name run_id : String)
    (fss : List FS) (counters : TaskCounters) :
    taskIdValTrace rootSet flow_name run_id fss counters =
      arithSeq (traceStart rootSet flow_name run_id fss counters) fss.length := by
  cases fss with
  | nil => rfl
  | cons fs rest =>
    unfold traceStart
    cases h : findVal (flow_name ++ "/" ++ run_id) counters with
    | some v => exact trace_of_found rootSet flow_name run_id _ counters v h
    | none =>
      rw [taskIdValTrace]
      simp only [next_task_id_val_of_absent rootSet flow_name run_id fs counters h]
      rw [trace_of_found rootSet flow_name run_id rest _ _ (findVal_insert_self _ _ _)]
      rfl

/-! ## Helper lemmas: the run-id trace -/

theorem new_run_id_val_gt (wall last_run_id : Int) :
    last_run_id < new_run_id_val wall last_run_id := by
  unfold new_run_id_val
  omega

theorem runIdValTrace_mem_gt : ∀ (walls : List Int) (last_run_id x : Int),
    x ∈ runIdValTrace walls last_run_id → last_run_id < x := by
  intro walls
  induction walls with
  | nil => intro last x hx; exact absurd hx (by simp [runIdValTrace])
  | cons wall rest ih =>
    intro last x hx
    rw [runIdValTrace] at hx
    rcases List.mem_cons.1 hx with hx | hx
    · rw [hx]; exact new_run_id_val_gt wall last
    · exact lt_trans (new_run_id_val_gt wall last) (ih _ x hx)

theorem runIdValTrace_pairwise : ∀ (walls : List Int) (last_run_id : Int),
    (runIdValTrace walls last_run_id).Pairwise (· < ·) := by
  intro walls
  induction walls with
  | nil => intro last; exact List.Pairwise.nil
  | cons wall rest ih =>
    intro last
    rw [runIdValTrace]
    refine List.pairwise_cons.2 ⟨fun x hx => ?_, ih _⟩
    exact runIdValTrace_mem_gt rest _ x hx

/-! ## Helper lemmas: object reads through writes -/

theorem get_object_self_insert_self (dir : MetaDirKey) (r : Record) (fs : FS) :
    get_object_self (insertFile dir "_self" (FileVal.record r) fs) dir = some r := by
  unfold get_object_self
  rw [getFile_insertFile_self]

theorem get_object_self_create_metadir (dir dir' : MetaDirKey) (fs : FS) :
    get_object_self (_create_and_get_metadir dir' fs) dir = get_object_self fs dir := by
  unfold get_object_self getFile
  rw [create_metadir_files]

theorem removeKey_subset {κ β : Type} [DecidableEq κ] (k : κ) :
    ∀ (l : List (κ × β)) (e : κ × β), e ∈ removeKey k l → e ∈ l := by
  intro l
  induction l with
  | nil => intro e he; exact absurd he (by simp [removeKey])
  | cons a as ih =>
    intro e he
    rw [removeKey] at he
    split at he
    · exact List.mem_cons_of_mem a (ih e he)
    · rcases List.mem_cons.1 he with he | he
      · rw [he]; exact List.mem_cons_self a as
      · exact List.mem_cons_of_mem a (ih e he)

theorem flow_record_after_get_or_create (flow_name : String) (body : Body)
    (env : Env) (fs : FS) :
    (get_object_self (get_or_create_flow flow_name body env fs).2 [flow_name]).isSome
      = true := by
  unfold get_or_create_flow
  cases h : get_object_self fs [flow_name] with
  | some r => simp [h]
  | none =>
    simp only [h, save_meta_single]
    rw [get_object_self_insert_self]
    rfl

theorem step_record_after_get_or_create (flow_name run_id step_name : String)
    (body : Body) (env : Env) (fs : FS) :
    (get_object_self (get_or_create_step flow_name run_id step_name body env fs).2
      [flow_name, run_id, step_name]).isSome = true := by
  unfold get_or_create_step
  cases h : get_object_self fs [flow_name, run_id, step_name] with
  | some r => simp [h]
  | none =>
    simp only [h, save_meta_single]
    rw [get_object_self_insert_self]
    rfl

theorem get_or_create_flow_of_found (flow_name : String) (body : Body) (env : Env)
    (fs : FS) (r : Record) (h : get_object_self fs [flow_name] = some r) :
    get_or_create_flow flow_name body env fs = ((r, false), fs) := by
  unfold get_or_create_flow
  rw [h]

theorem get_or_create_flow_of_absent (flow_name : String) (body : Body) (env : Env)
    (fs : FS) (h : get_object_self fs [flow_name] = none) :
    get_or_create_flow flow_name body env fs =
      ((_build_flow_record flow_name body env, true),
        _save_meta [flow_name]
          [("_self", FileVal.record (_build_flow_record flow_name body env))]
          (_create_and_get_metadir [flow_name] fs)) := by
  unfold get_or_create_flow
  rw [h]

/-! ## Claim theorems -/

/-- C2: every `new_run_id` call returns `max(currentWallClockMicros,
lastIssued + 1)` and stores it as the new `lastIssued`, so over any
sequence of calls (any wall-clock readings, stalled or not) the
numeric run IDs are pairwise distinct and strictly increasing. -/
theorem run_ids_strictly_increasing (walls : List Int) (last_run_id wall l : Int) :
    new_run_id wall l = (toString (max wall (l + 1)), max wall (l + 1)) ∧
    (runIdValTrace walls last_run_id).Pairwise (· < ·) ∧
    (runIdValTrace walls last_run_id).Chain' (· < ·) :=
  ⟨rfl, runIdValTrace_pairwise _ _, (runIdValTrace_pairwise _ _).chain'⟩

/-- C3: `get_or_create_flow` called twice with identical input on a
store where the flow is absent returns `(record, true)` then
`(the same record, false)`, and the second call leaves the store
untouched (no overwrite). -/
theorem flow_get_or_create_idempotent (flow_name : String) (body : Body)
    (env : Env) (fs : FS) (habs : get_object_self fs [flow_name] = none) :
    (get_or_create_flow flow_name body env fs).1.2 = true ∧
    (get_or_create_flow flow_name body env
      ((get_or_create_flow flow_name body env fs).2)).1.2 = false ∧
    (get_or_create_flow flow_name body env
        ((get_or_create_flow flow_name body env fs).2)).1.1 =
      (get_or_create_flow flow_name body env fs).1.1 ∧
    (get_or_create_flow flow_name body env
        ((get_or_create_flow flow_name body env fs).2)).2 =
      (get_or_create_flow flow_name body env fs).2 := by
  have hfst : get_or_create_flow flow_name body env fs =
      ((_build_flow_record flow_name body env, true),
        _save_meta [flow_name] [("_self", FileVal.record (_build_flow_record flow_name body env))]
          (_create_and_get_metadir [flow_name] fs)) :=
    get_or_create_flow_of_absent flow_name body env fs habs
  have hread : get_object_self (get_or_create_flow flow_name body env fs).2 [flow_name] =
      some (_build_flow_record flow_name body env) := by
    rw [hfst, save_meta_single, get_object_self_insert_self]
  have hsnd : get_or_create_flow flow_name body env
      ((get_or_create_flow flow_name body env fs).2) =
      ((_build_flow_record flow_name body env, false),
        (get_or_create_flow flow_name body env fs).2) :=
    get_or_create_flow_of_found flow_name body env _ _ hread
  refine ⟨?_, ?_, ?_, ?_⟩
  · rw [hfst]
  · rw [hsnd]
  · rw [hsnd, hfst]
  · rw [hsnd]

/-- C3 witness: concrete empty store. -/
theorem flow_get_or_create_idempotent_witness :
    (get_or_create_flow "f" {} ⟨"u", 1⟩ ⟨[], []⟩).1.2 = true ∧
    (get_or_create_flow "f" {} ⟨"u", 1⟩
      ((get_or_create_flow "f" {} ⟨"u", 1⟩ ⟨[], []⟩).2)).1.2 = false :=
  have h := flow_get_or_create_idempotent "f" {} ⟨"u", 1⟩ ⟨[], []⟩ rfl
  ⟨h.1, h.2.1⟩

/-- C4 counterexample: on an empty store, `get_or_create_step` writes
the step record but no Run `_self` record — the parent Run record does
not exist afterwards, contradicting the claim that it always does. -/
theorem step_create_leaves_no_run_record :
    get_object_self ((get_or_create_step "f" "r" "s" {} ⟨"u", 1⟩ ⟨[], []⟩).2)
      ["f", "r"] = none := by
  decide

/-- C4 (amended): `create_run` implicitly and idempotently creates the
parent Flow record, and `create_task` the parent Step record, for
every key path; `get_or_create_step`, however, only creates
directories and leaves the parent Run record exactly as it was (it
exists afterwards only if it existed before). -/
theorem implicit_parent_creation_amended (flow_name run_id step_name : String)
    (body : Body) (env : Env) (wall : Int) (fs : FS) (last_run_id : Int)
    (rootSet : Bool) (counters : TaskCounters) :
    (get_object_self (create_run flow_name body env wall fs last_run_id).2.1
      [flow_name]).isSome = true ∧
    (get_object_self (create_task flow_name run_id step_name body env rootSet fs
      counters).2.1 [flow_name, run_id, step_name]).isSome = true ∧
    get_object_self (get_or_create_step flow_name run_id step_name body env fs).2
        [flow_name, run_id] =
      get_object_self fs [flow_name, run_id] := by
  refine ⟨?_, ?_, ?_⟩
  · show (get_object_self (_save_meta _ _ _) [flow_name]).isSome = true
    rw [save_meta_single, get_object_self_insert_other _ _ _ _ (by simp),
      get_object_self_create_metadir]
    exact flow_record_after_get_or_create flow_name body env fs
  · show (get_object_self (_save_meta _ _ _) [flow_name, run_id, step_name]).isSome = true
    rw [save_meta_single, get_object_self_insert_other _ _ _ _ (by simp),
      get_object_self_create_metadir]
    exact step_record_after_get_or_create flow_name run_id step_name body env fs
  · unfold get_or_create_step
    cases h : get_object_self fs [flow_name, run_id, step_name] with
    | some r => rfl
    | none =>
      show get_object_self (_save_meta _ _ _) [flow_name, run_id] = _
      rw [save_meta_single, get_object_self_insert_other _ _ _ _ (by simp),
        get_object_self_create_metadir]

/-- C7: `status()` returns Absent (`none`) and never raises when the
discovery record is missing, malformed, or names a dead process; in
the dead-process case it deletes the stale record before returning. -/
theorem status_self_healing (dfs : DaemonFS) :
    (dfs.state_file = StateFileContent.absent → status dfs = (none, dfs)) ∧
    (dfs.state_file = StateFileContent.malformed → status dfs = (none, dfs)) ∧
    (∀ d, dfs.state_file = StateFileContent.valid d → dfs.alive d.pid = false →
      status dfs = (none, _clear_state dfs) ∧
      (status dfs).2.state_file = StateFileContent.absent ∧
      (status dfs).2.pid_file = false) := by
  refine ⟨fun h => ?_, fun h => ?_, fun d h hdead => ?_⟩
  · unfold status _read_state
    rw [h]
  · unfold status _read_state
    rw [h]
  · have hst : status dfs = (none, _clear_state dfs) := by
      unfold status _read_state
      rw [h]
      show (if dfs.alive d.pid then _ else _) = _
      rw [hdead]
      rfl
    exact ⟨hst, by rw [hst]; rfl, by rw [hst]; rfl⟩

/-- C7 witness: a record naming dead PID 17 is self-healed. -/
theorem status_self_healing_witness :
    status ⟨StateFileContent.valid ⟨17, 8080, "root", 5⟩, true, fun _ => false⟩ =
      (none, _clear_state ⟨StateFileContent.valid ⟨17, 8080, "root", 5⟩, true,
        fun _ => false⟩) :=
  ((status_self_healing ⟨StateFileContent.valid ⟨17, 8080, "root", 5⟩, true,
    fun _ => false⟩).2.2 ⟨17, 8080, "root", 5⟩ rfl rfl).1

/-- C8: the idle monitor's check never fires while the time since the
last heartbeat is at most the idle timeout; once it exceeds the
timeout the wake-up sets `should_exit`; a heartbeat at time `h` resets
the reference point, deferring shutdown for a full timeout window from
`h`; and wake-ups happen on the fixed 30-second interval. -/
theorem idle_monitor_timeout (idle_timeout now h boot : Int) (k : Nat)
    (s : ServerState) (flow_name run_id : String) (lastHb : Int) :
    (now - lastHb ≤ idle_timeout → idleCheckFires idle_timeout now lastHb = false ∧
      idleMonitorWake idle_timeout now lastHb false = false) ∧
    (idle_timeout < now - lastHb → idleCheckFires idle_timeout now lastHb = true ∧
      idleMonitorWake idle_timeout now lastHb false = true) ∧
    ((run_heartbeat flow_name run_id h s).2.last_heartbeat_at = h ∧
      (now - h ≤ idle_timeout →
        idleCheckFires idle_timeout now
          (run_heartbeat flow_name run_id h s).2.last_heartbeat_at = false)) ∧
    monitorWakeTime boot k = boot + 30 * ((k : Int) + 1) := by
  refine ⟨fun hle => ?_, fun hlt => ?_, ⟨rfl, fun hle => ?_⟩, ?_⟩
  · have hfire : idleCheckFires idle_timeout now lastHb = false := by
      simp only [idleCheckFires, decide_eq_false_iff_not]
      omega
    exact ⟨hfire, by simp [idleMonitorWake, hfire]⟩
  · have hfire : idleCheckFires idle_timeout now lastHb = true := by
      simp only [idleCheckFires, decide_eq_true_eq]
      omega
    exact ⟨hfire, by simp [idleMonitorWake, hfire]⟩
  · show idleCheckFires idle_timeout now h = false
    simp only [idleCheckFires, decide_eq_false_iff_not]
    omega
  · show boot + (30 : Int) * ((k : Int) + 1) = boot + 30 * ((k : Int) + 1)
    rfl

/-- C8 witness: timeout 300, heartbeat at 0 — the check at time 300
does not fire, the check at time 331 does. -/
theorem idle_monitor_timeout_witness :
    idleCheckFires 300 300 0 = false ∧ idleCheckFires 300 331 0 = true :=
  ⟨((idle_monitor_timeout 300 300 0 0 0 ⟨0, ⟨[], []⟩, [], 0⟩ "f" "r" 0).1
      (by norm_num)).1,
    ((idle_monitor_timeout 300 331 0 0 0 ⟨0, ⟨[], []⟩, [], 0⟩ "f" "r" 0).2.1
      (by norm_num)).1⟩

/-- C10: for every path parameters and every server state, the run and
task heartbeat endpoints return status 200 with body
`{"wait_time_in_seconds": 10}` (no existence check — the response never
depends on the store), and they update only `last_heartbeat_at`: the
store state (filesystem, task counters, run-id clock) is untouched. -/
theorem heartbeat_pure_response (flow_name run_id step_name task_id : String)
    (now : Int) (s : ServerState) :
    run_heartbeat flow_name run_id now s =
      ({ status_code := 200, wait_time_in_seconds := 10 },
        { s with last_heartbeat_at := now }) ∧
    task_heartbeat flow_name run_id step_name task_id now s =
      ({ status_code := 200, wait_time_in_seconds := 10 },
        { s with last_heartbeat_at := now }) ∧
    (run_heartbeat flow_name run_id now s).2.store_fs = s.store_fs ∧
    (run_heartbeat flow_name run_id now s).2.store_counters = s.store_counters ∧
    (run_heartbeat flow_name run_id now s).2.store_last_run_id = s.store_last_run_id ∧
    (task_heartbeat flow_name run_id step_name task_id now s).2.store_fs = s.store_fs ∧
    (task_heartbeat flow_name run_id step_name task_id now s).2.store_counters
      = s.store_counters ∧
    (task_heartbeat flow_name run_id step_name task_id now s).2.store_last_run_id
      = s.store_last_run_id :=
  ⟨rfl, rfl, rfl, rfl, rfl, rfl, rfl, rfl⟩

/-- C1: for one (flow, run) pair the task IDs form a single strictly
increasing sequence — the trace of successive `_next_task_id` calls is
`seed+1, seed+2, ...` and pairwise distinct; when the pair has not
been seen in this process (restart), the first allocation returns the
on-disk maximum task id plus one; the returned string is the decimal
rendering of the numeric counter; and `create_task` draws from this
same per-(flow, run) sequence whatever the step name is. -/
theorem task_ids_strictly_increasing_and_seeded (rootSet : Bool)
    (flow_name run_id step_name : String) (body : Body) (env : Env)
    (fss : List FS) (counters : TaskCounters) (fs : FS) :
    taskIdValTrace rootSet flow_name run_id fss counters =
      arithSeq (traceStart rootSet flow_name run_id fss counters) fss.length ∧
    (taskIdValTrace rootSet flow_name run_id fss counters).Pairwise (· < ·) ∧
    (findVal (flow_name ++ "/" ++ run_id) counters = none →
      ∀ fs0 rest, fss = fs0 :: rest →
      (taskIdValTrace rootSet flow_name run_id fss counters).head? =
        some (_scan_max_task_id rootSet flow_name run_id fs0 + 1)) ∧
    (_next_task_id rootSet flow_name run_id fs counters).1 =
      toString (_next_task_id_val rootSet flow_name run_id fs counters).1 ∧
    (create_task flow_name run_id step_name body env rootSet fs counters).1.task_id =
      some ((_next_task_id rootSet flow_name run_id
        ((get_or_create_step flow_name run_id step_name body env fs).2) counters).1) ∧
    (create_task flow_name run_id step_name body env rootSet fs counters).2.2 =
      (_next_task_id rootSet flow_name run_id
        ((get_or_create_step flow_name run_id step_name body env fs).2) counters).2 := by
  refine ⟨trace_closed_form rootSet flow_name run_id fss counters, ?_, ?_, rfl, rfl, rfl⟩
  · rw [trace_closed_form]
    exact arithSeq_pairwise _ _
  · intro h fs0 rest heq
    subst heq
    rw [trace_closed_form]
    unfold traceStart
    rw [h]
    rfl

/-- C1 witness: a fresh process over an empty run directory issues
"1" first, and two successive calls issue 1 then 2. -/
theorem task_ids_strictly_increasing_and_seeded_witness :
    (taskIdValTrace true "f" "r" [⟨[], []⟩, ⟨[], []⟩] []).head? = some 1 ∧
    (taskIdValTrace true "f" "r" [⟨[], []⟩, ⟨[], []⟩] []).Pairwise (· < ·) := by
  have h := task_ids_strictly_increasing_and_seeded true "f" "r" "s" {} ⟨"u", 1⟩
    [⟨[], []⟩, ⟨[], []⟩] [] ⟨[], []⟩
  refine ⟨?_, h.2.1⟩
  rw [h.2.2.1 rfl ⟨[], []⟩ [⟨[], []⟩] rfl]
  decide

/-- C9: every ID `_next_task_id` returns is the decimal string of a
positive integer (never "0"), positivity of the counter map is
preserved, and the seed scan is total: an unset datastore root yields
seed 0 and a task directory whose name does not parse as an integer is
skipped rather than raising. -/
theorem task_ids_positive_and_scan_total (rootSet : Bool)
    (flow_name run_id s t nm : String) (v : FileVal) (fs fs' : FS)
    (counters : TaskCounters) (hwf : ∀ p ∈ counters, 0 ≤ p.2) :
    (∃ n : Nat, 1 ≤ n ∧
      (_next_task_id rootSet flow_name run_id fs counters).1 = toString n) ∧
    (_next_task_id rootSet flow_name run_id fs counters).1 ≠ "0" ∧
    (∀ p ∈ (_next_task_id rootSet flow_name run_id fs counters).2, 0 ≤ p.2) ∧
    _scan_max_task_id false flow_name run_id fs = 0 ∧
    (pyInt t = none →
      _scan_max_task_id rootSet flow_name run_id
        ⟨fs'.dirs, (([flow_name, run_id, s, t], nm), v) :: fs'.files⟩ =
      _scan_max_task_id rootSet flow_name run_id fs') := by
  have hv1 : (_next_task_id_val rootSet flow_name run_id fs counters).1 =
      (match findVal (flow_name ++ "/" ++ run_id) counters with
        | some w => w
        | none => _scan_max_task_id rootSet flow_name run_id fs) + 1 := rfl
  have hseed : 0 ≤ (match findVal (flow_name ++ "/" ++ run_id) counters with
      | some w => w
      | none => _scan_max_task_id rootSet flow_name run_id fs) := by
    cases hf : findVal (flow_name ++ "/" ++ run_id) counters with
    | some w => exact hwf _ (findVal_mem _ _ _ hf)
    | none => exact scan_max_task_id_nonneg rootSet flow_name run_id fs
  have hpos : 1 ≤ (_next_task_id_val rootSet flow_name run_id fs counters).1 := by
    rw [hv1]
    omega
  have hofnat : Int.ofNat ((_next_task_id_val rootSet flow_name run_id fs counters).1.toNat) =
      (_next_task_id_val rootSet flow_name run_id fs counters).1 :=
    Int.toNat_of_nonneg (by omega)
  have hn1 : 1 ≤ (_next_task_id_val rootSet flow_name run_id fs counters).1.toNat := by
    omega
  have hstr : (_next_task_id rootSet flow_name run_id fs counters).1 =
      toString ((_next_task_id_val rootSet flow_name run_id fs counters).1.toNat) := by
    show toString (_next_task_id_val rootSet flow_name run_id fs counters).1 = _
    conv_lhs => rw [← hofnat]
    rw [toString_int_ofNat]
  refine ⟨⟨_, hn1, hstr⟩, ?_, ?_, rfl, ?_⟩
  · rw [hstr]
    exact nat_repr_ne_zero _ hn1
  · intro p hp
    have hshape : (_next_task_id rootSet flow_name run_id fs counters).2 =
        (flow_name ++ "/" ++ run_id, (_next_task_id_val rootSet flow_name run_id fs counters).1)
          :: removeKey (flow_name ++ "/" ++ run_id) counters := rfl
    rw [hshape] at hp
    rcases List.mem_cons.1 hp with hp | hp
    · rw [hp]
      exact le_trans (by norm_num) hpos
    · exact hwf p (removeKey_subset _ _ p hp)
  · intro ht
    have hent : ∀ m, scanEntry flow_name run_id m (([flow_name, run_id, s, t], nm), v) = m := by
      intro m
      show (if flow_name = flow_name ∧ run_id = run_id ∧ nm = "_self" then
        match pyInt t with
        | some w => max m w
        | none => m
        else m) = m
      rw [ht]
      split <;> rfl
    cases rootSet with
    | false => rfl
    | true =>
      show List.foldl (scanEntry flow_name run_id) 0
          ((([flow_name, run_id, s, t], nm), v) :: fs'.files) = _
      rw [List.foldl_cons, hent]
      rfl

/-- C9 witness: fresh counters over an empty store — the first ID is
not "0", and the scan with no datastore root is 0. -/
theorem task_ids_positive_and_scan_total_witness :
    (_next_task_id true "f" "r" ⟨[], []⟩ []).1 ≠ "0" ∧
    _scan_max_task_id false "f" "r" ⟨[], []⟩ = 0 :=
  have h := task_ids_positive_and_scan_total true "f" "r" "s" "t" "x"
    (FileVal.artifact ⟨"a", none, ""⟩) ⟨[], []⟩ ⟨[], []⟩ [] (by simp)
  ⟨h.2.1, h.2.2.2.1⟩

/-! ## Helper lemmas: artifact file names and glob filtering -/

theorem zero_key_ne_one_key (n m : String) :
    toString (0 : Nat) ++ "_artifact_" ++ n ≠ toString (1 : Nat) ++ "_artifact_" ++ m := by
  intro h
  have hd := congrArg String.data h
  have h0 : ((toString (0 : Nat) ++ "_artifact_" ++ n) : String).data =
      '0' :: (("_artifact_" : String).data ++ n.data) := by cases n; rfl
  have h1 : ((toString (1 : Nat) ++ "_artifact_" ++ m) : String).data =
      '1' :: (("_artifact_" : String).data ++ m.data) := by cases m; rfl
  rw [h0, h1] at hd
  injection hd with hc _
  exact absurd hc (by decide)

theorem str_append_left_cancel (p n m : String) (h : p ++ n = p ++ m) : n = m := by
  have hd := congrArg String.data h
  have ha : (p ++ n).data = p.data ++ n.data := by cases p; cases n; rfl
  have hb : (p ++ m).data = p.data ++ m.data := by cases p; cases m; rfl
  rw [ha, hb] at hd
  have hq := List.append_cancel_left hd
  cases n; cases m; cases hq; rfl

theorem pair_ne_of_fst_ne {α β : Type} (a c : α) (b d : β) (h : a ≠ c) :
    (a, b) ≠ (c, d) := fun he => h (congrArg Prod.fst he)

theorem pair_ne_of_snd_ne {α β : Type} (a c : α) (b d : β) (h : b ≠ d) :
    (a, b) ≠ (c, d) := fun he => h (congrArg Prod.snd he)

theorem filterMap_glob_of_all_true (dir : MetaDirKey) (attempt : Option Nat) :
    ∀ (l : List ((MetaDirKey × String) × FileVal)),
    (∀ e ∈ l, e.1.1 = dir ∧ globArtifactMatch attempt e.1.2 = true) →
    l.filterMap (fun e =>
        if e.1.1 = dir ∧ globArtifactMatch attempt e.1.2 then some e.2 else none) =
      l.map (fun e => e.2) := by
  intro l
  induction l with
  | nil => intro _; rfl
  | cons e es ih =>
    intro h
    rw [List.filterMap_cons]
    have he := h e (List.mem_cons_self e es)
    rw [if_pos ⟨he.1, he.2⟩, List.map_cons, ih fun a ha => h a (List.mem_cons_of_mem e ha)]

theorem filterMap_glob_of_none (dir : MetaDirKey) (attempt : Option Nat) :
    ∀ (l : List ((MetaDirKey × String) × FileVal)),
    (∀ e ∈ l, e.1.1 ≠ dir ∨ globArtifactMatch attempt e.1.2 = false) →
    l.filterMap (fun e =>
        if e.1.1 = dir ∧ globArtifactMatch attempt e.1.2 then some e.2 else none) = [] := by
  intro l
  induction l with
  | nil => intro _; rfl
  | cons e es ih =>
    intro h
    rw [List.filterMap_cons]
    have hcond : ¬ (e.1.1 = dir ∧ globArtifactMatch attempt e.1.2 = true) := by
      rcases h e (List.mem_cons_self e es) with hne | hfalse
      · exact fun hc => hne hc.1
      · exact fun hc => by rw [hfalse] at hc; exact Bool.false_ne_true hc.2
    rw [if_neg hcond, ih fun a ha => h a (List.mem_cons_of_mem e ha)]

theorem register_artifacts_files (flow_name run_id step_name task_id : String)
    (arts : List Art) (fs : FS)
    (hfresh : ∀ a ∈ arts, ∀ e' ∈ fs.files,
      e'.1 ≠ ([flow_name, run_id, step_name, task_id], artifactFileName a))
    (hnodup : (arts.map artifactFileName).Nodup) :
    (register_artifacts flow_name run_id step_name task_id arts fs).files =
      (arts.map (fun a => (([flow_name, run_id, step_name, task_id],
        artifactFileName a), FileVal.artifact a))).reverse ++ fs.files := by
  show (_save_meta [flow_name, run_id, step_name, task_id]
      (arts.map (fun a => (artifactFileName a, FileVal.artifact a)))
      (_create_and_get_metadir [flow_name, run_id, step_name, task_id] fs)).files = _
  rw [save_meta_files_of_fresh _ _ _ ?fresh ?nodup, List.map_map, create_metadir_files]
  · rfl
  case fresh =>
    intro e he e' he'
    rw [create_metadir_files] at he'
    rcases List.mem_map.1 he with ⟨a, ha, rfl⟩
    exact hfresh a ha e' he'
  case nodup =>
    rw [List.map_map]
    exact hnodup

theorem register_artifacts_contains (flow_name run_id step_name task_id : String)
    (arts : List Art) (fs : FS) :
    (register_artifacts flow_name run_id step_name task_id arts fs).dirs.contains
      [flow_name, run_id, step_name, task_id] = true := by
  show (_save_meta _ _ (_create_and_get_metadir _ fs)).dirs.contains _ = true
  rw [save_meta_dirs]
  exact create_metadir_contains _ _

theorem register_artifacts_contains_mono (flow_name run_id step_name task_id : String)
    (arts : List Art) (fs : FS) (d : MetaDirKey) (h : fs.dirs.contains d = true) :
    (register_artifacts flow_name run_id step_name task_id arts fs).dirs.contains d
      = true := by
  show (_save_meta _ _ (_create_and_get_metadir _ fs)).dirs.contains _ = true
  rw [save_meta_dirs]
  exact create_metadir_contains_mono _ _ _ h

theorem get_artifacts_eval (flow_name run_id step_name task_id : String)
    (attempt : Option Nat) (fs : FS)
    (hdir : fs.dirs.contains [flow_name, run_id, step_name, task_id] = true) :
    get_artifacts flow_name run_id step_name task_id attempt fs =
      fs.files.filterMap (fun e =>
        if e.1.1 = [flow_name, run_id, step_name, task_id] ∧
            globArtifactMatch attempt e.1.2 then some e.2 else none) := by
  simp only [get_artifacts, dirExists, hdir, if_true]

/-- C5: after registering artifact lists for attempts 0 and 1 of a
task (distinct names within each list), filtering by attempt 1
returns exactly the attempt-1 artifacts and nothing from attempt 0,
while the unfiltered call returns the artifacts of both attempts.
The store may already hold anything anywhere — in particular the
task's own `_self` record and `sysmeta_*` metadata files in its
metadir — as long as no pre-existing file in that metadir matches the
artifact glob `*_artifact_*` (i.e. no artifacts were registered for
this task before). -/
theorem artifacts_attempt_filtering (flow_name run_id step_name task_id : String)
    (arts0 arts1 : List Art) (fs : FS)
    (hfs : ∀ e ∈ fs.files, e.1.1 = [flow_name, run_id, step_name, task_id] →
      globArtifactMatch none e.1.2 = false)
    (h0 : ∀ a ∈ arts0, a.attempt_id.getD 0 = 0)
    (h1 : ∀ a ∈ arts1, a.attempt_id.getD 0 = 1)
    (hn0 : (arts0.map Art.name).Nodup)
    (hn1 : (arts1.map Art.name).Nodup) :
    get_artifacts flow_name run_id step_name task_id (some 1)
        (register_artifacts flow_name run_id step_name task_id arts1
          (register_artifacts flow_name run_id step_name task_id arts0 fs)) =
      arts1.reverse.map FileVal.artifact ∧
    get_artifacts flow_name run_id step_name task_id none
        (register_artifacts flow_name run_id step_name task_id arts1
          (register_artifacts flow_name run_id step_name task_id arts0 fs)) =
      (arts1.reverse ++ arts0.reverse).map FileVal.artifact := by
  have hkey0 : ∀ a ∈ arts0, artifactFileName a =
      toString (0 : Nat) ++ "_artifact_" ++ a.name := by
    intro a ha
    unfold artifactFileName
    rw [h0 a ha]
  have hkey1 : ∀ a ∈ arts1, artifactFileName a =
      toString (1 : Nat) ++ "_artifact_" ++ a.name := by
    intro a ha
    unfold artifactFileName
    rw [h1 a ha]
  have hinj0 : Function.Injective
      (fun n => toString (0 : Nat) ++ "_artifact_" ++ n : String → String) :=
    fun x y hxy => str_append_left_cancel _ x y hxy
  have hinj1 : Function.Injective
      (fun n => toString (1 : Nat) ++ "_artifact_" ++ n : String → String) :=
    fun x y hxy => str_append_left_cancel _ x y hxy
  have hnk0 : (arts0.map artifactFileName).Nodup := by
    rw [List.map_congr_left hkey0, show arts0.map
        (fun a => toString (0 : Nat) ++ "_artifact_" ++ a.name) =
      (arts0.map Art.name).map (fun n => toString (0 : Nat) ++ "_artifact_" ++ n) by
        rw [List.map_map]; rfl]
    exact hn0.map hinj0
  have hnk1 : (arts1.map artifactFileName).Nodup := by
    rw [List.map_congr_left hkey1, show arts1.map
        (fun a => toString (1 : Nat) ++ "_artifact_" ++ a.name) =
      (arts1.map Art.name).map (fun n => toString (1 : Nat) ++ "_artifact_" ++ n) by
        rw [List.map_map]; rfl]
    exact hn1.map hinj1
  have hfresh0 : ∀ a ∈ arts0, ∀ e' ∈ fs.files,
      e'.1 ≠ ([flow_name, run_id, step_name, task_id], artifactFileName a) := by
    intro a ha e' he' heq
    have hglob := hfs e' he' (congrArg Prod.fst heq)
    rw [show e'.1.2 = artifactFileName a from congrArg Prod.snd heq, hkey0 a ha,
      glob_none_accepts 0 a.name] at hglob
    exact absurd hglob (by decide)
  have hfiles1 : (register_artifacts flow_name run_id step_name task_id arts0 fs).files =
      (arts0.map (fun a => (([flow_name, run_id, step_name, task_id],
        artifactFileName a), FileVal.artifact a))).reverse ++ fs.files :=
    register_artifacts_files flow_name run_id step_name task_id arts0 fs hfresh0 hnk0
  have hfresh1 : ∀ a ∈ arts1,
      ∀ e' ∈ (register_artifacts flow_name run_id step_name task_id arts0 fs).files,
      e'.1 ≠ ([flow_name, run_id, step_name, task_id], artifactFileName a) := by
    intro a ha e' he'
    rw [hfiles1] at he'
    rcases List.mem_append.1 he' with he' | he'
    · rw [List.mem_reverse] at he'
      rcases List.mem_map.1 he' with ⟨b, hb, rfl⟩
      apply pair_ne_of_snd_ne
      rw [hkey0 b hb, hkey1 a ha]
      exact zero_key_ne_one_key b.name a.name
    · intro heq
      have hglob := hfs e' he' (congrArg Prod.fst heq)
      rw [show e'.1.2 = artifactFileName a from congrArg Prod.snd heq, hkey1 a ha,
        glob_none_accepts 1 a.name] at hglob
      exact absurd hglob (by decide)
  have hfiles2 : (register_artifacts flow_name run_id step_name task_id arts1
      (register_artifacts flow_name run_id step_name task_id arts0 fs)).files =
      (arts1.map (fun a => (([flow_name, run_id, step_name, task_id],
        artifactFileName a), FileVal.artifact a))).reverse ++
      ((arts0.map (fun a => (([flow_name, run_id, step_name, task_id],
        artifactFileName a), FileVal.artifact a))).reverse ++ fs.files) := by
    rw [register_artifacts_files flow_name run_id step_name task_id arts1 _ hfresh1 hnk1,
      hfiles1]
  have hdirex : (register_artifacts flow_name run_id step_name task_id arts1
      (register_artifacts flow_name run_id step_name task_id arts0 fs)).dirs.contains
      [flow_name, run_id, step_name, task_id] = true :=
    register_artifacts_contains_mono flow_name run_id step_name task_id arts1 _ _
      (register_artifacts_contains flow_name run_id step_name task_id arts0 fs)
  have hmap1 : ((arts1.map (fun a => (([flow_name, run_id, step_name,
      task_id], artifactFileName a), FileVal.artifact a))).reverse).map (fun e => e.2) =
      arts1.reverse.map FileVal.artifact := by
    rw [← List.map_reverse, List.map_map]
    rfl
  have hmap0 : ((arts0.map (fun a => (([flow_name, run_id, step_name,
      task_id], artifactFileName a), FileVal.artifact a))).reverse).map (fun e => e.2) =
      arts0.reverse.map FileVal.artifact := by
    rw [← List.map_reverse, List.map_map]
    rfl
  have hcond1 : ∀ e ∈ (arts1.map (fun a => (([flow_name, run_id, step_name, task_id],
      artifactFileName a), FileVal.artifact a))).reverse,
      e.1.1 = [flow_name, run_id, step_name, task_id] ∧
        globArtifactMatch (some 1) e.1.2 = true := by
    intro e he
    rw [List.mem_reverse] at he
    rcases List.mem_map.1 he with ⟨b, hb, rfl⟩
    refine ⟨rfl, ?_⟩
    show globArtifactMatch (some 1) (artifactFileName b) = true
    rw [hkey1 b hb]
    exact glob_match_same_attempt 1 b.name
  have hcond0_rej : ∀ e ∈ (arts0.map (fun a => (([flow_name, run_id, step_name, task_id],
      artifactFileName a), FileVal.artifact a))).reverse,
      e.1.1 ≠ [flow_name, run_id, step_name, task_id] ∨
        globArtifactMatch (some 1) e.1.2 = false := by
    intro e he
    rw [List.mem_reverse] at he
    rcases List.mem_map.1 he with ⟨b, hb, rfl⟩
    right
    show globArtifactMatch (some 1) (artifactFileName b) = false
    rw [hkey0 b hb]
    exact glob_one_rejects_zero b.name
  have hcond1_none : ∀ e ∈ (arts1.map (fun a => (([flow_name, run_id, step_name, task_id],
      artifactFileName a), FileVal.artifact a))).reverse,
      e.1.1 = [flow_name, run_id, step_name, task_id] ∧
        globArtifactMatch none e.1.2 = true := by
    intro e he
    rw [List.mem_reverse] at he
    rcases List.mem_map.1 he with ⟨b, hb, rfl⟩
    refine ⟨rfl, ?_⟩
    show globArtifactMatch none (artifactFileName b) = true
    rw [hkey1 b hb]
    exact glob_none_accepts 1 b.name
  have hcond0_none : ∀ e ∈ (arts0.map (fun a => (([flow_name, run_id, step_name, task_id],
      artifactFileName a), FileVal.artifact a))).reverse,
      e.1.1 = [flow_name, run_id, step_name, task_id] ∧
        globArtifactMatch none e.1.2 = true := by
    intro e he
    rw [List.mem_reverse] at he
    rcases List.mem_map.1 he with ⟨b, hb, rfl⟩
    refine ⟨rfl, ?_⟩
    show globArtifactMatch none (artifactFileName b) = true
    rw [hkey0 b hb]
    exact glob_none_accepts 0 b.name
  have hfscond_none : ∀ e ∈ fs.files,
      e.1.1 ≠ [flow_name, run_id, step_name, task_id] ∨
        globArtifactMatch none e.1.2 = false := by
    intro e he
    by_cases hd : e.1.1 = [flow_name, run_id, step_name, task_id]
    · exact Or.inr (hfs e he hd)
    · exact Or.inl hd
  have hfscond_one : ∀ e ∈ fs.files,
      e.1.1 ≠ [flow_name, run_id, step_name, task_id] ∨
        globArtifactMatch (some 1) e.1.2 = false := by
    intro e he
    by_cases hd : e.1.1 = [flow_name, run_id, step_name, task_id]
    · right
      cases hg : globArtifactMatch (some 1) e.1.2 with
      | false => rfl
      | true =>
        have hcontra := hfs e he hd
        rw [glob_some_implies_none 1 e.1.2 hg] at hcontra
        exact absurd hcontra (by decide)
    · exact Or.inl hd
  constructor
  · rw [get_artifacts_eval flow_name run_id step_name task_id (some 1) _ hdirex,
      hfiles2, List.filterMap_append, List.filterMap_append,
      filterMap_glob_of_all_true _ _ _ hcond1,
      filterMap_glob_of_none _ _ _ hcond0_rej,
      filterMap_glob_of_none _ _ _ hfscond_one,
      hmap1]
    simp
  · rw [get_artifacts_eval flow_name run_id step_name task_id none _ hdirex,
      hfiles2, List.filterMap_append, List.filterMap_append,
      filterMap_glob_of_all_true _ _ _ hcond1_none,
      filterMap_glob_of_all_true _ _ _ hcond0_none,
      filterMap_glob_of_none _ _ _ hfscond_none,
      hmap1, hmap0, List.map_append]
    simp

/-- C5 witness: one artifact per attempt, registered for a task whose
metadir already holds its `_self` record and a `sysmeta_*` metadata
file (the state every task created by the service is in). -/
theorem artifacts_attempt_filtering_witness :
    get_artifacts "f" "r" "s" "1" (some 1)
        (register_artifacts "f" "r" "s" "1" [⟨"x", some 1, "d1"⟩]
          (register_artifacts "f" "r" "s" "1" [⟨"x", some 0, "d0"⟩]
            ⟨[["f", "r", "s", "1"]],
              [((["f", "r", "s", "1"], "_self"),
                  FileVal.record ⟨"f", some "r", some "s", some "1", "u", [], [], 1⟩),
                ((["f", "r", "s", "1"], "sysmeta_attempt_7"),
                  FileVal.record ⟨"f", some "r", some "s", some "1", "u", [], [], 2⟩)]⟩)) =
      [FileVal.artifact ⟨"x", some 1, "d1"⟩] := by
  have h := artifacts_attempt_filtering "f" "r" "s" "1"
    [⟨"x", some 0, "d0"⟩] [⟨"x", some 1, "d1"⟩]
    ⟨[["f", "r", "s", "1"]],
      [((["f", "r", "s", "1"], "_self"),
          FileVal.record ⟨"f", some "r", some "s", some "1", "u", [], [], 1⟩),
        ((["f", "r", "s", "1"], "sysmeta_attempt_7"),
          FileVal.record ⟨"f", some "r", some "s", some "1", "u", [], [], 2⟩)]⟩
    (by decide) (by simp) (by simp) (by simp) (by simp)
  rw [h.1]
  rfl

/-- C6: tag mutation on a run reads the current record, stores and
returns `(existingTags ∪ toAdd) \ toRemove`; adding "new" to
{"existing"} while removing nothing keeps both, and removing
"existing" while adding nothing drops it. -/
theorem mutate_tags_union_sdiff (flow_name run_id : String)
    (tags_to_add tags_to_remove : List String) (fs : FS) (r : Record)
    (h : get_object_self fs [flow_name, run_id] = some r) :
    mutate_tags flow_name run_id tags_to_add tags_to_remove fs =
      some ((r.tags.toFinset ∪ tags_to_add.toFinset) \ tags_to_remove.toFinset,
        insertFile [flow_name, run_id] "_self"
          (FileVal.record { r with tags :=
            ((r.tags.toFinset ∪ tags_to_add.toFinset) \
              tags_to_remove.toFinset).sort (· ≤ ·) }) fs) ∧
    (∀ p, mutate_tags flow_name run_id tags_to_add tags_to_remove fs = some p →
      (get_object_self p.2 [flow_name, run_id]).map (fun x => x.tags.toFinset) =
        some p.1) ∧
    ("existing" ∈ ((["existing"] : List String).toFinset ∪
        (["new"] : List String).toFinset) \ (([] : List String)).toFinset ∧
      "new" ∈ ((["existing"] : List String).toFinset ∪
        (["new"] : List String).toFinset) \ (([] : List String)).toFinset) ∧
    "existing" ∉ ((["existing"] : List String).toFinset ∪
      (([] : List String)).toFinset) \ (["existing"] : List String).toFinset := by
  have hmain : mutate_tags flow_name run_id tags_to_add tags_to_remove fs =
      some ((r.tags.toFinset ∪ tags_to_add.toFinset) \ tags_to_remove.toFinset,
        insertFile [flow_name, run_id] "_self"
          (FileVal.record { r with tags :=
            ((r.tags.toFinset ∪ tags_to_add.toFinset) \
              tags_to_remove.toFinset).sort (· ≤ ·) }) fs) := by
    unfold mutate_tags
    rw [h]
  refine ⟨hmain, ?_, by decide, by decide⟩
  intro p hp
  rw [hmain] at hp
  injection hp with hp
  subst hp
  show (get_object_self (insertFile [flow_name, run_id] "_self" _ fs)
    [flow_name, run_id]).map _ = _
  rw [get_object_self_insert_self]
  show some (((r.tags.toFinset ∪ tags_to_add.toFinset) \
    tags_to_remove.toFinset).sort (· ≤ ·)).toFinset = _
  rw [Finset.sort_toFinset]

/-- C6 witness: a run whose stored tags are ["existing"]. -/
theorem mutate_tags_union_sdiff_witness :
    ∃ p, mutate_tags "f" "r" ["new"] []
        ⟨[["f", "r"]], [((["f", "r"], "_self"),
          FileVal.record ⟨"f", some "r", none, none, "u", ["existing"], [], 1⟩)]⟩ =
        some p ∧ "existing" ∈ p.1 ∧ "new" ∈ p.1 :=
  have h := mutate_tags_union_sdiff "f" "r" ["new"] []
    ⟨[["f", "r"]], [((["f", "r"], "_self"),
      FileVal.record ⟨"f", some "r", none, none, "u", ["existing"], [], 1⟩)]⟩
    ⟨"f", some "r", none, none, "u", ["existing"], [], 1⟩ rfl
  ⟨_, h.1, by decide, by decide⟩
